import Mathlib

/-!
# Verification of the DeckForge AI recommender core (`old codes/app.py`)

Shallow embedding of the content-based recommendation engine:
the feature composer (`nice_text`, `build_text_features`), the bucketer
(`infer_primary_bucket`), the vector-space indexer (`build_recommender`,
wrapping scikit-learn's `TfidfVectorizer` with `lowercase=True,
stop_words="english", max_features=50000, ngram_range=(1, 2)`), and the
similarity ranker (`recommend_cards`).

Modelling conventions:
* Python strings are `List Char`; Python float arithmetic is modelled as
  exact real arithmetic over `ℝ`.
* A cell of a pandas row is a `Field`: a present string (`val`), a missing
  value that is Python `None` (`pynone`, as produced by the Scryfall fetcher
  for e.g. cards without oracle text), a missing value that is a float NaN
  (`pynan`, as produced by `pd.read_csv` for empty cells), or a key that is
  absent from the row altogether (`absent`, the case in which
  `row.get(field, "")` returns its `""` default).
* `str()` applied to these cells gives `""`, `"None"`, `"nan"`, or the
  string itself; this is `pyStr` below.
-/

namespace DeckForge

/-- A Python string, embedded as its list of characters. -/
abbrev Str := List Char

/-- One cell of a pandas row, as seen by `row.get(...)` in `app.py`:
a present string, Python `None`, a float NaN, or an absent key. -/
inductive Field where
  | val (s : Str)
  | pynone
  | pynan
  | absent
deriving DecidableEq, Repr

instance : Inhabited Field := ⟨Field.absent⟩

/-- `str(row.get(f, ""))`: an absent key yields the `""` default, `None`
renders as `"None"`, a NaN renders as `"nan"`, and a string is unchanged. -/
def pyStr : Field → Str
  | .val s => s
  | .pynone => "None".data
  | .pynan => "nan".data
  | .absent => []

/-- `pd.notna` on a cell: true exactly for present (string) values. -/
def notnaB : Field → Bool
  | .val _ => true
  | _ => false

/-- One record of the corpus dataframe, restricted to the seven columns the
recommender core reads (the remaining columns — cmc, power, image_uri, … —
are only used by the GUI layer). -/
structure CardRow where
  name : Field
  type_line : Field
  oracle_text : Field
  colors : Field
  keywords : Field
  set_name : Field
  rarity : Field
deriving DecidableEq, Repr

instance : Inhabited CardRow :=
  ⟨⟨.absent, .absent, .absent, .absent, .absent, .absent, .absent⟩⟩

/-- The whitespace characters stripped by Python's `str.strip()`
(ASCII subset, which covers every corpus considered here). -/
def pyIsSpace (c : Char) : Bool :=
  c = ' ' || c = '\t' || c = '\n' || c = '\r' || c = '\x0b' || c = '\x0c'

/-- `s.strip()`: drop leading and trailing whitespace. -/
def pyStrip (s : Str) : Str :=
  ((s.dropWhile pyIsSpace).reverse.dropWhile pyIsSpace).reverse

/-- `nice_text` from `app.py`: `s.replace("\n", " ").strip()`.
(The `not isinstance(s, str) or not s` guard returns `""`; at its only call
site inside `build_text_features` the argument is always a string, and on
the empty string the body below also returns `""`.) -/
def nice_text (s : Str) : Str :=
  pyStrip (s.map (fun c => if c = '\n' then ' ' else c))

/-- The seven feature cells of a record, in the order `build_text_features`
reads them. -/
def featureFields (r : CardRow) : List Field :=
  [r.name, r.type_line, r.oracle_text, r.colors, r.keywords, r.set_name, r.rarity]

/-- `build_text_features` from `app.py`: stringify the seven fields with
`str(row.get(f, ""))`, normalize each with `nice_text`, and join with
`" | "`.  (The `if isinstance(p, str)` filter never drops anything, because
every element is the result of `str(...)`.) -/
def build_text_features (r : CardRow) : Str :=
  List.intercalate " | ".data ((featureFields r).map (fun f => nice_text (pyStr f)))

/-- `needle in hay` on Python strings: contiguous-substring test. -/
def hasSub (needle : Str) : Str → Bool
  | [] => needle.isEmpty
  | c :: rest => needle.isPrefixOf (c :: rest) || hasSub needle rest

/-- `infer_primary_bucket` from `app.py`: case-insensitive substring tests on
the type line, in the source's order; non-string input yields `"Other"`. -/
def infer_primary_bucket (type_line : Field) : Str :=
  match type_line with
  | .val s =>
    let t := s.map Char.toLower
    if hasSub "land".data t then "Lands".data
    else if hasSub "creature".data t then "Creatures".data
    else if hasSub "planeswalker".data t then "Planeswalkers".data
    else if hasSub "artifact".data t && !hasSub "creature".data t then "Artifacts".data
    else if hasSub "enchantment".data t then "Enchantments".data
    else if hasSub "instant".data t then "Instants".data
    else if hasSub "sorcery".data t then "Sorceries".data
    else "Other".data
  | _ => "Other".data

/-- The eight bucket labels. -/
def bucketLabels : List Str :=
  ["Lands", "Creatures", "Planeswalkers", "Artifacts", "Enchantments",
   "Instants", "Sorceries", "Other"].map String.data

/-! ## The vectorizer's analyzer

`TfidfVectorizer(lowercase=True, stop_words="english", max_features=50000,
ngram_range=(1, 2))` analyzes each document by lower-casing it, extracting
the tokens matched by the default `token_pattern` `r"(?u)\b\w\w+\b"`
(maximal runs of word characters, of length at least 2), removing English
stop words, and then forming unigrams and bigrams of the remaining token
sequence.  A term (n-gram) is modelled as the list of its tokens. -/

/-- A vocabulary term: a unigram `[t]` or a bigram `[t, u]`. -/
abbrev Term := List Str

/-- A word character for the default `token_pattern` (ASCII fragment of
Python's `\w`, which covers every corpus considered here). -/
def isWordChar (c : Char) : Bool := c.isAlphanum || c = '_'

/-- Tokenization: lower-case, then keep the maximal runs of word characters
that have length at least 2 (the regex `\b\w\w+\b`). -/
def tokenize (s : Str) : List Str :=
  (((s.map Char.toLower).splitOnP (fun c => !isWordChar c)).filter
    (fun r => 2 ≤ r.length))

/-- scikit-learn's frozen `ENGLISH_STOP_WORDS` list. -/
def stopWords : List Str :=
  (["a", "about", "above", "across", "after", "afterwards", "again",
    "against", "all", "almost", "alone", "along", "already", "also",
    "although", "always", "am", "among", "amongst", "amoungst", "amount",
    "an", "and", "another", "any", "anyhow", "anyone", "anything", "anyway",
    "anywhere", "are", "around", "as", "at", "back", "be", "became",
    "because", "become", "becomes", "becoming", "been", "before",
    "beforehand", "behind", "being", "below", "beside", "besides",
    "between", "beyond", "bill", "both", "bottom", "but", "by", "call",
    "can", "cannot", "cant", "co", "con", "could", "couldnt", "cry", "de",
    "describe", "detail", "do", "done", "down", "due", "during", "each",
    "eg", "eight", "either", "eleven", "else", "elsewhere", "empty",
    "enough", "etc", "even", "ever", "every", "everyone", "everything",
    "everywhere", "except", "few", "fifteen", "fifty", "fill", "find",
    "fire", "first", "five", "for", "former", "formerly", "forty", "found",
    "four", "from", "front", "full", "further", "get", "give", "go", "had",
    "has", "hasnt", "have", "he", "hence", "her", "here", "hereafter",
    "hereby", "herein", "hereupon", "hers", "herself", "him", "himself",
    "his", "how", "however", "hundred", "i", "ie", "if", "in", "inc",
    "indeed", "interest", "into", "is", "it", "its", "itself", "keep",
    "last", "latter", "latterly", "least", "less", "ltd", "made", "many",
    "may", "me", "meanwhile", "might", "mill", "mine", "more", "moreover",
    "most", "mostly", "move", "much", "must", "my", "myself", "name",
    "namely", "neither", "never", "nevertheless", "next", "nine", "no",
    "nobody", "none", "noone", "nor", "not", "nothing", "now", "nowhere",
    "of", "off", "often", "on", "once", "one", "only", "onto", "or",
    "other", "others", "otherwise", "our", "ours", "ourselves", "out",
    "over", "own", "part", "per", "perhaps", "please", "put", "rather",
    "re", "same", "see", "seem", "seemed", "seeming", "seems", "serious",
    "several", "she", "should", "show", "side", "since", "sincere", "six",
    "sixty", "so", "some", "somehow", "someone", "something", "sometime",
    "sometimes", "somewhere", "still", "such", "system", "take", "ten",
    "than", "that", "the", "their", "them", "themselves", "then", "thence",
    "there", "thereafter", "thereby", "therefore", "therein", "thereupon",
    "these", "they", "thick", "thin", "third", "this", "those", "though",
    "three", "through", "throughout", "thru", "thus", "to", "together",
    "too", "top", "toward", "towards", "twelve", "twenty", "two", "un",
    "under", "until", "up", "upon", "us", "very", "via", "was", "we",
    "well", "were", "what", "whatever", "when", "whence", "whenever",
    "where", "whereafter", "whereas", "whereby", "wherein", "whereupon",
    "wherever", "whether", "which", "while", "whither", "who", "whoever",
    "whole", "whom", "whose", "why", "will", "with", "within", "without",
    "would", "yet", "you", "your", "yours", "yourself",
    "yourselves"] : List String).map String.data

/-- The analyzer: tokenize, remove stop words, then emit unigrams followed
by bigrams of the filtered token sequence (`ngram_range=(1, 2)`). -/
def analyze (s : Str) : List Term :=
  let toks := (tokenize s).filter (fun t => !stopWords.contains t)
  toks.map (fun t => [t]) ++ (toks.zip toks.tail).map (fun p => [p.1, p.2])

/-- The feature blob of every corpus record, in corpus order
(the `text_features` column built in `build_recommender`). -/
def blobs (c : List CardRow) : List Str := c.map build_text_features

/-- The analyzed documents, one per corpus record, in corpus order. -/
def docsList (c : List CardRow) : List (List Term) := (blobs c).map analyze

/-- The analyzed document at row `i` (`[]` out of range; never reached). -/
def docAt (c : List CardRow) (i : ℕ) : List Term := (docsList c).getD i []

/-- Total corpus frequency of a term (what `max_features` selects by). -/
def termFreq (c : List CardRow) (t : Term) : ℕ :=
  ((docsList c).map (fun d => d.count t)).sum

/-- Document frequency of a term: the number of documents containing it. -/
def dfreq (c : List CardRow) (t : Term) : ℕ :=
  (docsList c).countP (fun d => d.contains t)

/-- The vectorizer's vocabulary cap. -/
def MAX_FEATURES : ℕ := 50000

/-- `TfidfVectorizer.fit`'s vocabulary: every term occurring in the corpus;
when more than `max_features = 50000` distinct terms occur, the 50000 with
the highest total corpus frequency are kept (scikit-learn breaks frequency
ties in an unspecified argsort order; the model uses a deterministic order.
No corpus considered in the theorems below reaches the cap). -/
def vocabList (c : List CardRow) : List Term :=
  let all := ((docsList c).foldr (· ++ ·) []).dedup
  if all.length ≤ MAX_FEATURES then all
  else (all.mergeSort (fun a b => termFreq c b ≤ termFreq c a)).take MAX_FEATURES

/-- The vocabulary as a finset, the index set for all vector sums. -/
def vocabFinset (c : List CardRow) : Finset Term := (vocabList c).toFinset

/-! ## The tf-idf weights

`TfidfVectorizer` defaults: `smooth_idf=True`, `sublinear_tf=False`,
`norm="l2"`.  So `idf(t) = ln((1+n)/(1+df(t))) + 1`, the raw weight of term
`t` in document `d` is `tf(t,d) * idf(t)`, and each document's weight vector
is L2-normalized (a document with zero norm is left as the zero vector,
matching `sklearn.preprocessing.normalize`; in `ℝ` this is `x / 0 = 0`).
Float arithmetic is modelled as exact real arithmetic. -/

/-- `idf(t) = ln((1+n)/(1+df(t))) + 1` with `smooth_idf=True`. -/
noncomputable def idfR (c : List CardRow) (t : Term) : ℝ :=
  Real.log ((1 + (c.length : ℝ)) / (1 + (dfreq c t : ℝ))) + 1

/-- Un-normalized tf-idf weight of term `t` for an analyzed document `d`
(zero for terms outside the fitted vocabulary). -/
noncomputable def rawW (c : List CardRow) (d : List Term) (t : Term) : ℝ :=
  if t ∈ vocabList c then (d.count t : ℝ) * idfR c t else 0

/-- Euclidean norm of a document's raw weight vector. -/
noncomputable def rowNorm (c : List CardRow) (d : List Term) : ℝ :=
  Real.sqrt (∑ t ∈ vocabFinset c, (rawW c d t) ^ 2)

/-- L2-normalized tf-idf weight (the entries of `state.tfidf_matrix`). -/
noncomputable def tfidfW (c : List CardRow) (d : List Term) (t : Term) : ℝ :=
  rawW c d t / rowNorm c d

/-- The tf-idf weight matrix: one row (a finitely supported function on
terms) per corpus record, in corpus order. -/
noncomputable def tfidfMatrix (c : List CardRow) : List (Term → ℝ) :=
  (docsList c).map (fun d => fun t => tfidfW c d t)

/-! ## `RecommenderState` and `build_recommender` -/

/-- The `RecommenderState` dataclass: the working dataframe (whose derived
`text_features` column is `blobs df`), the fitted vectorizer (its
vocabulary and idf vector), and the tf-idf matrix. -/
structure RecommenderState where
  df : List CardRow
  vocab : List Term
  idf : Term → ℝ
  tfidf_matrix : List (Term → ℝ)

/-- The state `build_recommender` produces on a corpus it accepts. -/
noncomputable def mkState (c : List CardRow) : RecommenderState :=
  ⟨c, vocabList c, idfR c, tfidfMatrix c⟩

/-- The ways `build_recommender` can raise.  `emptyDataset` is the explicit
`ValueError("Dataset vacío. Descarga cartas primero.")` guard on `df.empty`;
`emptyVocabulary` is the `ValueError("empty vocabulary; perhaps the
documents only contain stop words")` that `TfidfVectorizer.fit_transform`
raises when no document yields any vocabulary term. -/
inductive BuildErr where
  | emptyDataset
  | emptyVocabulary
deriving DecidableEq, Repr

/-- `build_recommender` from `app.py`: reject an empty dataframe, fit the
vectorizer (which rejects an empty vocabulary), and return the state. -/
noncomputable def build_recommender (c : List CardRow) :
    Except BuildErr RecommenderState :=
  if c.isEmpty then .error .emptyDataset
  else if (vocabList c).isEmpty then .error .emptyVocabulary
  else .ok (mkState c)

/-! ## `recommend_cards`

`df["name"].isin(seed_names)` is exact, case-sensitive string membership;
NaN/None names match nothing.  `df[mask].index.tolist()` lists the matching
row positions in ascending order.  The aggregate seed vector is the
component-wise arithmetic mean of the seed rows (`seed_matrix.mean(axis=0)`,
not re-normalized), every row is scored by `linear_kernel` (a dot product),
seed names and NaN names are dropped, and the remainder is sorted by
descending similarity and truncated with `.head(top_n)`.

`sort_values("similarity", ascending=False)` is pandas `nargsort`: an
ascending `argsort` with numpy's default quicksort, followed by reversing
the indexer.  We model the ascending argsort as a stable insertion sort
followed by the reversal.  This is exact on arrays below numpy's
small-array cutoff (roughly 16 elements), where the quicksort degenerates
to a plain insertion sort; on larger arrays the introsort partitioning may
reorder equal keys, so the program guarantees no particular order between
tied keys.  Accordingly, no theorem below asserts a tie order for general
corpora — the descending-similarity order, the truncation length and the
membership of the result are the same for every correct descending sort —
and only the concrete two-candidate evaluation in `C1_counterexample`
(squarely inside the insertion-sort regime) depends on the tie behaviour
of the model. -/

/-- `name in seed_names` for one cell of the `name` column. -/
def nameMatches (seeds : List Str) : Field → Bool
  | .val x => seeds.contains x
  | _ => false

/-- The `name` cell at row `i`. -/
def nameAt (c : List CardRow) (i : ℕ) : Field := (c.getD i default).name

/-- The row at position `i` (default row out of range; never reached). -/
def rowAt (c : List CardRow) (i : ℕ) : CardRow := c.getD i default

/-- `df[df["name"].isin(seed_names)].index.tolist()`: all matching row
positions, ascending. -/
def resolveSeedIdx (c : List CardRow) (seeds : List Str) : List ℕ :=
  (List.range c.length).filter (fun i => nameMatches seeds (nameAt c i))

/-- `df_res[~df_res["name"].isin(seed_names) & df_res["name"].notna()]`:
the candidate row positions, ascending. -/
def candidates (c : List CardRow) (seeds : List Str) : List ℕ :=
  (List.range c.length).filter
    (fun i => !nameMatches seeds (nameAt c i) && notnaB (nameAt c i))

/-- Stable ascending insertion into a sorted list: `x` goes in front of the
first element whose key is not smaller (so in front of elements with an
equal key, which all entered earlier — stability). -/
noncomputable def insertAsc (key : ℕ → ℝ) (x : ℕ) : List ℕ → List ℕ
  | [] => [x]
  | y :: l => if key x ≤ key y then x :: y :: l else y :: insertAsc key x l

/-- Stable ascending insertion sort: numpy's `argsort(kind="quicksort")`
exactly in its small-array insertion-sort regime; for larger arrays the
real introsort agrees except possibly on the relative order of equal keys
(see the discussion above — theorems about general corpora below use only
tie-independent consequences of this definition). -/
noncomputable def sortAsc (key : ℕ → ℝ) : List ℕ → List ℕ
  | [] => []
  | x :: l => insertAsc key x (sortAsc key l)

/-- pandas `sort_values(ascending=False)`: ascending argsort, reversed. -/
noncomputable def pandasSortDesc (key : ℕ → ℝ) (l : List ℕ) : List ℕ :=
  (sortAsc key l).reverse

/-- Row `i` of the stored tf-idf matrix (`state.tfidf_matrix[i]`). -/
def rowVec (st : RecommenderState) (i : ℕ) : Term → ℝ :=
  st.tfidf_matrix.getD i (fun _ => 0)

/-- The aggregate query vector `seed_matrix.mean(axis=0)`: component-wise
arithmetic mean of the matrix rows at the seed positions. -/
noncomputable def seedVecSt (st : RecommenderState) (seeds : List Str) (t : Term) : ℝ :=
  (((resolveSeedIdx st.df seeds).map (fun i => rowVec st i t)).sum) /
    ((resolveSeedIdx st.df seeds).length : ℝ)

/-- `linear_kernel(seed_vec, tfidf)[j]`: dot product of the aggregate with
row `j`. -/
noncomputable def simsSt (st : RecommenderState) (seeds : List Str) (j : ℕ) : ℝ :=
  ∑ t ∈ st.vocab.toFinset, seedVecSt st seeds t * rowVec st j t

/-- The ranked candidate row positions: descending similarity, truncated to
`top_n` (`sort_values(..., ascending=False).head(top_n)`). -/
noncomputable def rankedIdxSt (st : RecommenderState) (seeds : List Str) (topN : ℕ) :
    List ℕ :=
  (pandasSortDesc (simsSt st seeds) (candidates st.df seeds)).take topN

/-- One row of the returned dataframe: the record's columns plus the
`similarity` and `bucket` columns added by `recommend_cards`. -/
structure RecResult where
  row : CardRow
  similarity : ℝ
  bucket : Str

/-- The rows of the result dataframe, in ranked order. -/
noncomputable def resultsSt (st : RecommenderState) (seeds : List Str) (topN : ℕ) :
    List RecResult :=
  (rankedIdxSt st seeds topN).map (fun i =>
    ⟨rowAt st.df i, simsSt st seeds i, infer_primary_bucket (rowAt st.df i).type_line⟩)

/-- The failure `recommend_cards` can raise: the
`ValueError("Ninguna de las cartas semilla está en el dataset.")` guard. -/
inductive RecErr where
  | noSeedMatch
deriving DecidableEq, Repr

/-- `recommend_cards` from `app.py`. -/
noncomputable def recommend_cards (st : RecommenderState) (seeds : List Str)
    (topN : ℕ) : Except RecErr (List RecResult) :=
  if (resolveSeedIdx st.df seeds).isEmpty then .error .noSeedMatch
  else .ok (resultsSt st seeds topN)

/-- `RECOMMEND_TOP_N` from `app.py`. -/
def RECOMMEND_TOP_N : ℕ := 55

/-- State-passing form of `recommend_cards`: the Python function reads
`state.df`, `state.tfidf_matrix` and `state.vectorizer` and performs all of
its column assignments on the local copy `df_res = df.copy()`, so the state
it leaves behind is the state it was given. -/
noncomputable def recommend_cards_state (st : RecommenderState)
    (seeds : List Str) (topN : ℕ) :
    Except RecErr (List RecResult) × RecommenderState :=
  (recommend_cards st seeds topN, st)

/-! ## Concrete corpora used in counterexamples and witnesses -/

/-- A record carrying only a name. -/
def rowOf (nm : String) : CardRow :=
  { name := .val nm.data, type_line := .absent, oracle_text := .absent,
    colors := .absent, keywords := .absent, set_name := .absent, rarity := .absent }

/-- A two-record corpus with distinct names and non-empty vocabulary. -/
def cGood : List CardRow := [rowOf "alpha", rowOf "beta"]

/-- A one-record corpus whose blob `"a |  |  |  |  |  | "` is non-empty but
yields no vocabulary token (the only word-character run has length 1). -/
def cBad : List CardRow := [rowOf "a"]

/-- A three-record corpus whose rows 1 and 2 are identical, so their
similarity scores to any seed are equal. -/
def cTie : List CardRow := [rowOf "alpha", rowOf "beta", rowOf "beta"]

/-- A record whose `oracle_text` cell holds a missing value (a float NaN,
as `pd.read_csv` produces for an empty cell). -/
def rNanOracle : CardRow :=
  ⟨.absent, .absent, .pynan, .absent, .absent, .absent, .absent⟩

/-! ## Text-layer helper lemmas -/

theorem dropWhile_dropWhile {α : Type} (p : α → Bool) (l : List α) :
    List.dropWhile p (List.dropWhile p l) = List.dropWhile p l := by
  induction l with
  | nil => rfl
  | cons a l ih =>
    by_cases h : p a
    · simp [List.dropWhile_cons, h, ih]
    · simp [List.dropWhile_cons, h]

theorem dropWhile_eq_self_of_isPre {α : Type} (p : α → Bool) {l m : List α}
    (hm : m <+: l) (hl : List.dropWhile p l = l) :
    List.dropWhile p m = m := by
  cases m with
  | nil => rfl
  | cons a m' =>
    have ha : p a = false := by
      cases hp : p a
      · rfl
      · exfalso
        obtain ⟨t, ht⟩ := hm
        subst ht
        rw [List.cons_append, List.dropWhile_cons, if_pos hp] at hl
        have hle := (List.dropWhile_sublist p (l := m' ++ t)).length_le
        have hlen := congrArg List.length hl
        simp [List.length_append] at hlen hle
        omega
    simp [List.dropWhile_cons, ha]

theorem pyStrip_dropWhile_left (s : Str) :
    List.dropWhile pyIsSpace (pyStrip s) = pyStrip s := by
  unfold pyStrip
  apply dropWhile_eq_self_of_isPre (l := s.dropWhile pyIsSpace)
  · rw [← List.reverse_suffix]
    simp only [List.reverse_reverse]
    exact List.dropWhile_suffix pyIsSpace
  · exact dropWhile_dropWhile pyIsSpace s

theorem pyStrip_dropWhile_right (s : Str) :
    List.dropWhile pyIsSpace (pyStrip s).reverse = (pyStrip s).reverse := by
  unfold pyStrip
  simp only [List.reverse_reverse]
  exact dropWhile_dropWhile pyIsSpace _

theorem mem_of_mem_pyStrip {a : Char} {s : Str} (h : a ∈ pyStrip s) : a ∈ s := by
  unfold pyStrip at h
  rw [List.mem_reverse] at h
  have h2 := (List.dropWhile_sublist pyIsSpace (l := (s.dropWhile pyIsSpace).reverse)).mem h
  rw [List.mem_reverse] at h2
  exact (List.dropWhile_sublist pyIsSpace (l := s)).mem h2

theorem newline_not_mem_nice_text (s : Str) : '\n' ∉ nice_text s := by
  intro h
  have h2 := mem_of_mem_pyStrip h
  rw [List.mem_map] at h2
  obtain ⟨a, _, ha⟩ := h2
  by_cases hn : a = '\n'
  · rw [if_pos hn] at ha
    exact absurd ha (by decide)
  · rw [if_neg hn] at ha
    exact hn ha

/-! ## C6: the bucketer -/

/-- The seven substring tests of `infer_primary_bucket` all fail. -/
def noBucketMatchB (t : Str) : Bool :=
  let s := t.map Char.toLower
  !hasSub "land".data s && !hasSub "creature".data s &&
  !hasSub "planeswalker".data s && !hasSub "artifact".data s &&
  !hasSub "enchantment".data s && !hasSub "instant".data s &&
  !hasSub "sorcery".data s

/-- C6: for every type descriptor the bucketer returns one of the eight
labels; `"Artifact Creature — Golem"` buckets as Creatures (the Artifact
test is skipped when the Creature test also matches), `"Basic Land —
Forest"` as Lands, `"Legendary Sorcery"` as Sorceries; a descriptor
matching none of the case-insensitive substring tests yields `"Other"`, as
does a non-string (missing) descriptor. -/
theorem C6_bucketer (t : Str) (u : Field) (h : noBucketMatchB t = true) :
    infer_primary_bucket u ∈ bucketLabels ∧
    infer_primary_bucket (.val "Artifact Creature — Golem".data) = "Creatures".data ∧
    infer_primary_bucket (.val "Basic Land — Forest".data) = "Lands".data ∧
    infer_primary_bucket (.val "Legendary Sorcery".data) = "Sorceries".data ∧
    infer_primary_bucket (.val t) = "Other".data ∧
    infer_primary_bucket .pynan = "Other".data ∧
    infer_primary_bucket .absent = "Other".data := by
  refine ⟨?_, by decide, by decide, by decide, ?_, by decide, by decide⟩
  · cases u with
    | val s =>
      simp only [infer_primary_bucket]
      repeat' split
      all_goals decide
    | pynone => decide
    | pynan => decide
    | absent => decide
  · simp only [noBucketMatchB, Bool.and_eq_true, Bool.not_eq_true'] at h
    obtain ⟨⟨⟨⟨⟨⟨h1, h2⟩, h3⟩, h4⟩, h5⟩, h6⟩, h7⟩ := h
    simp only [infer_primary_bucket]
    simp [h1, h2, h3, h4, h5, h6, h7]

/-- Witness for C6 at the concrete descriptor `"Battle"` (no test matches)
and the bucket input `"Artifact — Equipment"`. -/
theorem C6_bucketer_witness :
    infer_primary_bucket (.val "Artifact — Equipment".data) ∈ bucketLabels ∧
    infer_primary_bucket (.val "Artifact Creature — Golem".data) = "Creatures".data ∧
    infer_primary_bucket (.val "Basic Land — Forest".data) = "Lands".data ∧
    infer_primary_bucket (.val "Legendary Sorcery".data) = "Sorceries".data ∧
    infer_primary_bucket (.val "Battle".data) = "Other".data ∧
    infer_primary_bucket .pynan = "Other".data ∧
    infer_primary_bucket .absent = "Other".data :=
  C6_bucketer "Battle".data (.val "Artifact — Equipment".data) (by decide)

/-! ## C3: the feature composer -/

/-- C3 counterexample: the record whose `oracle_text` cell is a missing
value (NaN).  The claim says every missing field is rendered as the empty
string, which would give the blob `" |  |  |  |  |  | "`; the code passes
the cell through `str(...)`, so the blob contains `"nan"` instead. -/
theorem C3_counterexample :
    build_text_features rNanOracle = " |  | nan |  |  |  | ".data ∧
    build_text_features rNanOracle ≠ " |  |  |  |  |  | ".data := by
  constructor
  · decide
  · decide

/-- C3 amended: `build_text_features` is a pure total function that joins
the seven `nice_text`-normalized field strings with `" | "`; a field whose
key is absent renders as the empty string, but a field present with a
missing value renders as the text of Python's missing sentinel (`"nan"` for
a float NaN, `"None"` for `None`); `nice_text` output contains no newline
(newlines are replaced by spaces) and carries no leading or trailing
whitespace. -/
theorem C3_composer (r : CardRow) (s : Str) :
    build_text_features r =
      List.intercalate " | ".data
        ((featureFields r).map (fun f => nice_text (pyStr f))) ∧
    pyStr .absent = [] ∧
    pyStr .pynan = "nan".data ∧
    pyStr .pynone = "None".data ∧
    '\n' ∉ nice_text s ∧
    List.dropWhile pyIsSpace (nice_text s) = nice_text s ∧
    List.dropWhile pyIsSpace (nice_text s).reverse = (nice_text s).reverse := by
  refine ⟨rfl, rfl, rfl, rfl, newline_not_mem_nice_text s, ?_, ?_⟩
  · exact pyStrip_dropWhile_left _
  · exact pyStrip_dropWhile_right _

/-- Witness for C3 at the NaN-oracle record and a string with a newline and
surrounding whitespace. -/
theorem C3_composer_witness :
    build_text_features rNanOracle =
      List.intercalate " | ".data
        ((featureFields rNanOracle).map (fun f => nice_text (pyStr f))) ∧
    pyStr .absent = [] ∧
    pyStr .pynan = "nan".data ∧
    pyStr .pynone = "None".data ∧
    '\n' ∉ nice_text "  fly\nhigh ".data ∧
    List.dropWhile pyIsSpace (nice_text "  fly\nhigh ".data) =
      nice_text "  fly\nhigh ".data ∧
    List.dropWhile pyIsSpace (nice_text "  fly\nhigh ".data).reverse =
      (nice_text "  fly\nhigh ".data).reverse :=
  C3_composer rNanOracle "  fly\nhigh ".data

/-! ## C2: the indexer -/

/-- C2 counterexample: every record of `cBad` is usable in the claim's
sense (its composed blob is non-empty), yet `build_recommender` fails —
the vectorizer finds no vocabulary term in `"a |  |  |  |  |  | "` because
the only word-character run is shorter than 2 characters. -/
theorem C2_counterexample :
    (cBad.map build_text_features).all (fun b => !b.isEmpty) = true ∧
    build_recommender cBad = .error .emptyVocabulary := by
  constructor
  · decide
  · have h1 : cBad.isEmpty = false := by decide
    have h2 : (vocabList cBad).isEmpty = true := by decide
    simp [build_recommender, h1, h2]

/-- C2 amended: `build_recommender` fails exactly when the fitted
vocabulary is empty — that is, when no record's blob yields any term
(a lower-cased run of at least two word characters that is not a stop
word); the empty corpus hits the explicit `df.empty` guard and any other
empty-vocabulary corpus hits the vectorizer's error.  When some blob
yields a term it succeeds, and the returned tf-idf matrix has exactly one
row per corpus record, in corpus order, row `i` being the normalized
tf-idf vector of record `i`'s analyzed blob. -/
theorem C2_indexer (c c' : List CardRow) (i : ℕ) (t : Term)
    (h : vocabList c ≠ []) (h' : vocabList c' = []) :
    build_recommender c = .ok (mkState c) ∧
    build_recommender c' =
      .error (if c'.isEmpty then BuildErr.emptyDataset else BuildErr.emptyVocabulary) ∧
    (mkState c).tfidf_matrix.length = c.length ∧
    (i < c.length →
      (mkState c).tfidf_matrix.getD i (fun _ => 0) t = tfidfW c (docAt c i) t) := by
  refine ⟨?_, ?_, ?_, ?_⟩
  · have hc : c.isEmpty = false := by
      cases c with
      | nil => exact absurd rfl h
      | cons a l => rfl
    have hv : (vocabList c).isEmpty = false := by
      cases hvl : vocabList c with
      | nil => exact absurd hvl h
      | cons a l => rfl
    simp [build_recommender, hc, hv]
  · cases hc' : c'.isEmpty with
    | true => simp [build_recommender, hc']
    | false => simp [build_recommender, hc', h']
  · simp [mkState, tfidfMatrix, docsList, blobs]
  · intro hi
    have hi' : i < (docsList c).length := by
      simpa [docsList, blobs] using hi
    simp [mkState, tfidfMatrix, docAt, List.getD_eq_getElem?_getD,
      List.getElem?_map, List.getElem?_eq_getElem hi']

/-- Witness for C2 at the corpora `cGood` (non-empty vocabulary) and
`cBad` (empty vocabulary), row 0, term `["alpha"]`. -/
theorem C2_indexer_witness :
    build_recommender cGood = .ok (mkState cGood) ∧
    build_recommender cBad =
      .error (if cBad.isEmpty then BuildErr.emptyDataset else BuildErr.emptyVocabulary) ∧
    (mkState cGood).tfidf_matrix.length = cGood.length ∧
    (0 < cGood.length →
      (mkState cGood).tfidf_matrix.getD 0 (fun _ => 0) ["alpha".data] =
        tfidfW cGood (docAt cGood 0) ["alpha".data]) :=
  C2_indexer cGood cBad 0 ["alpha".data] (by decide) (by decide)

/-! ## C4: seed resolution -/

/-- C4: `recommend_cards` raises its no-seed-match error exactly when no
record's name matches any supplied seed name under exact case-sensitive
equality (NaN/None names match nothing), and the resolved seed positions
are exactly the in-range row positions whose name matches — so a
non-matching seed is silently dropped while any match suffices, and a name
matching several records contributes every matching row position to the
aggregation. -/
theorem C4_seed_resolution (st : RecommenderState) (s : List Str) (n i : ℕ) :
    (recommend_cards st s n = .error .noSeedMatch ↔
      st.df.all (fun r => !nameMatches s r.name) = true) ∧
    (i ∈ resolveSeedIdx st.df s ↔
      (decide (i < st.df.length) && nameMatches s (nameAt st.df i)) = true) := by
  have key : (resolveSeedIdx st.df s).isEmpty = true ↔
      st.df.all (fun r => !nameMatches s r.name) = true := by
    rw [List.isEmpty_iff, resolveSeedIdx, List.filter_eq_nil_iff, List.all_eq_true]
    constructor
    · intro hfi r hr
      obtain ⟨j, hj, rfl⟩ := List.mem_iff_getElem.mp hr
      have hj2 := hfi j (List.mem_range.mpr hj)
      simp only [nameAt, List.getD_eq_getElem?_getD,
        List.getElem?_eq_getElem hj] at hj2
      simpa using hj2
    · intro hall j hj
      have hj' := List.mem_range.mp hj
      have hr := hall _ (List.getElem_mem hj')
      simp only [nameAt, List.getD_eq_getElem?_getD, List.getElem?_eq_getElem hj']
      simpa using hr
  constructor
  · constructor
    · intro hErr
      refine key.mp ?_
      cases hE : (resolveSeedIdx st.df s).isEmpty
      · exact absurd hErr (by simp [recommend_cards, hE])
      · rfl
    · intro hAll
      simp [recommend_cards, key.mpr hAll]
  · simp [resolveSeedIdx, List.mem_filter, List.mem_range, Bool.and_eq_true,
      decide_eq_true_iff]

/-- Witness for C4: on `cGood`, the seed list `["zzz"]` matches nothing and
raises; position 1 is resolved for seed list `["beta"]`. -/
theorem C4_seed_resolution_witness :
    recommend_cards (mkState cGood) ["zzz".data] 55 = .error .noSeedMatch ∧
    (1 ∈ resolveSeedIdx (mkState cGood).df ["beta".data] ↔
      (decide (1 < (mkState cGood).df.length) &&
        nameMatches ["beta".data] (nameAt (mkState cGood).df 1)) = true) := by
  have h1 := C4_seed_resolution (mkState cGood) ["zzz".data] 55 1
  have h2 := C4_seed_resolution (mkState cGood) ["beta".data] 55 1
  exact ⟨h1.1.mpr (by decide), h2.2⟩

/-! ## C9: the state is never mutated -/

/-- C9: in state-passing form, `recommend_cards` returns the state it was
given — its dataframe, fitted vectorizer and tf-idf matrix unchanged — for
every input (matching or not), and a later query against the returned
state gives the same answer as against the original state.  The Python
body only reads `state.df`, `state.tfidf_matrix`, `state.vectorizer` and
writes exclusively to the local copy `df_res = df.copy()`. -/
theorem C9_state_immutable (st : RecommenderState) (s s' : List Str) (n n' : ℕ) :
    (recommend_cards_state st s n).2 = st ∧
    (recommend_cards_state ((recommend_cards_state st s n).2) s' n').1 =
      (recommend_cards_state st s' n').1 :=
  ⟨rfl, rfl⟩

/-! ## C10: seed lists with equal membership are interchangeable -/

/-- Mutual membership of two seed lists, as a Boolean test. -/
def seedsEquivB (s1 s2 : List Str) : Bool :=
  s1.all (fun x => s2.contains x) && s2.all (fun x => s1.contains x)

theorem nameMatches_congr {s1 s2 : List Str} (h : seedsEquivB s1 s2 = true) :
    nameMatches s1 = nameMatches s2 := by
  rw [seedsEquivB, Bool.and_eq_true, List.all_eq_true, List.all_eq_true] at h
  obtain ⟨h1, h2⟩ := h
  funext f
  cases f with
  | val x =>
    simp only [nameMatches]
    rw [Bool.eq_iff_iff]
    constructor
    · intro hx
      exact h1 x (List.elem_iff.mp hx)
    · intro hx
      exact h2 x (List.elem_iff.mp hx)
  | pynone => rfl
  | pynan => rfl
  | absent => rfl

theorem recommend_cards_congr (st : RecommenderState) {s1 s2 : List Str} (n : ℕ)
    (hm : nameMatches s1 = nameMatches s2) :
    recommend_cards st s1 n = recommend_cards st s2 n := by
  have h1 : resolveSeedIdx st.df s1 = resolveSeedIdx st.df s2 := by
    unfold resolveSeedIdx
    rw [hm]
  have h2 : candidates st.df s1 = candidates st.df s2 := by
    unfold candidates
    rw [hm]
  have h3 : seedVecSt st s1 = seedVecSt st s2 := by
    funext t
    unfold seedVecSt
    rw [h1]
  have h4 : simsSt st s1 = simsSt st s2 := by
    funext j
    unfold simsSt
    rw [h3]
  have h5 : rankedIdxSt st s1 n = rankedIdxSt st s2 n := by
    unfold rankedIdxSt
    rw [h4, h2]
  have h6 : resultsSt st s1 n = resultsSt st s2 n := by
    unfold resultsSt
    rw [h5, h4]
  unfold recommend_cards
  rw [h1, h6]

/-- C10: the output of `recommend_cards` depends on the seed list only
through membership — any permutation or duplication of the seed names
(indeed any list with the same member set) yields the identical result,
because both uses of the seed list (`isin` for resolution and `isin` for
exclusion) are set-membership tests. -/
theorem C10_seed_set_semantics (st : RecommenderState) (s1 s2 : List Str)
    (n : ℕ) (h : seedsEquivB s1 s2 = true) :
    recommend_cards st s1 n = recommend_cards st s2 n :=
  recommend_cards_congr st n (nameMatches_congr h)

/-- Witness for C10: a permuted, duplicated seed list on `cGood`. -/
theorem C10_seed_set_semantics_witness :
    recommend_cards (mkState cGood) ["alpha".data, "beta".data] 55 =
      recommend_cards (mkState cGood) ["beta".data, "alpha".data, "alpha".data] 55 :=
  C10_seed_set_semantics (mkState cGood) _ _ 55 (by decide)

/-! ## Lemmas about the modelled pandas sort -/

theorem mem_insertAsc (key : ℕ → ℝ) (x a : ℕ) (l : List ℕ) :
    a ∈ insertAsc key x l ↔ a = x ∨ a ∈ l := by
  induction l with
  | nil => simp [insertAsc]
  | cons y l ih =>
    rw [insertAsc]
    split
    · simp [List.mem_cons]
    · simp only [List.mem_cons, ih]
      tauto

theorem perm_insertAsc (key : ℕ → ℝ) (x : ℕ) (l : List ℕ) :
    (insertAsc key x l).Perm (x :: l) := by
  induction l with
  | nil => exact List.Perm.refl _
  | cons y l ih =>
    rw [insertAsc]
    split
    · exact List.Perm.refl _
    · exact (ih.cons y).trans (List.Perm.swap x y l)

theorem perm_sortAsc (key : ℕ → ℝ) (l : List ℕ) : (sortAsc key l).Perm l := by
  induction l with
  | nil => exact List.Perm.refl _
  | cons x l ih =>
    rw [sortAsc]
    exact (perm_insertAsc key x _).trans (ih.cons x)

/-- Ascending lexicographic order on (key, position): what a stable
ascending sort of a position-ascending input produces. -/
def lexBefore (key : ℕ → ℝ) (a b : ℕ) : Prop :=
  key a < key b ∨ (key a = key b ∧ a < b)

theorem insertAsc_pairwise (key : ℕ → ℝ) (x : ℕ) (l : List ℕ)
    (h : l.Pairwise (lexBefore key)) (hx : ∀ y ∈ l, x < y) :
    (insertAsc key x l).Pairwise (lexBefore key) := by
  induction l with
  | nil => simp [insertAsc, List.pairwise_cons]
  | cons y l ih =>
    rw [List.pairwise_cons] at h
    obtain ⟨hy, hl⟩ := h
    rw [insertAsc]
    split
    case isTrue hcond =>
      rw [List.pairwise_cons]
      refine ⟨?_, List.pairwise_cons.mpr ⟨hy, hl⟩⟩
      intro z hz
      rcases List.mem_cons.mp hz with rfl | hzl
      · rcases lt_or_eq_of_le hcond with hlt | heq
        · exact Or.inl hlt
        · exact Or.inr ⟨heq, hx z (by simp)⟩
      · rcases hy z hzl with hlt | ⟨heq, _⟩
        · rcases lt_or_eq_of_le hcond with h1 | h1
          · exact Or.inl (h1.trans hlt)
          · exact Or.inl (h1 ▸ hlt)
        · rcases lt_or_eq_of_le hcond with h1 | h1
          · exact Or.inl (heq ▸ h1)
          · exact Or.inr ⟨h1.trans heq, hx z (List.mem_cons_of_mem y hzl)⟩
    case isFalse hcond =>
      rw [List.pairwise_cons]
      constructor
      · intro z hz
        rcases (mem_insertAsc key x z l).mp hz with rfl | hzl
        · exact Or.inl (lt_of_not_le hcond)
        · exact hy z hzl
      · exact ih hl (fun z hz => hx z (List.mem_cons_of_mem _ hz))

theorem sortAsc_pairwise (key : ℕ → ℝ) (l : List ℕ) (h : l.Pairwise (· < ·)) :
    (sortAsc key l).Pairwise (lexBefore key) := by
  induction l with
  | nil => simp [sortAsc]
  | cons x l ih =>
    rw [List.pairwise_cons] at h
    obtain ⟨hx, hl⟩ := h
    rw [sortAsc]
    refine insertAsc_pairwise key x _ (ih hl) ?_
    intro y hy
    exact hx y ((perm_sortAsc key l).mem_iff.mp hy)

theorem candidates_pairwise_lt (c : List CardRow) (s : List Str) :
    (candidates c s).Pairwise (· < ·) :=
  (List.pairwise_lt_range c.length).filter _

theorem rankedIdxSt_pairwise (st : RecommenderState) (s : List Str) (n : ℕ) :
    (rankedIdxSt st s n).Pairwise (fun a b =>
      simsSt st s b < simsSt st s a ∨
        (simsSt st s b = simsSt st s a ∧ b < a)) := by
  unfold rankedIdxSt pandasSortDesc
  apply List.Pairwise.sublist (List.take_sublist _ _)
  rw [List.pairwise_reverse]
  exact sortAsc_pairwise _ _ (candidates_pairwise_lt st.df s)

theorem rankedIdxSt_subset_candidates {st : RecommenderState} {s : List Str}
    {n i : ℕ} (h : i ∈ rankedIdxSt st s n) : i ∈ candidates st.df s := by
  unfold rankedIdxSt pandasSortDesc at h
  have h1 := (List.take_sublist _ _).mem h
  rw [List.mem_reverse] at h1
  exact (perm_sortAsc _ _).mem_iff.mp h1

theorem length_rankedIdxSt (st : RecommenderState) (s : List Str) (n : ℕ) :
    (rankedIdxSt st s n).length = min n (candidates st.df s).length := by
  unfold rankedIdxSt pandasSortDesc
  rw [List.length_take, List.length_reverse, (perm_sortAsc _ _).length_eq]

theorem rankedIdxSt_perm (st : RecommenderState) (s : List Str) (n : ℕ)
    (h : (candidates st.df s).length ≤ n) :
    (rankedIdxSt st s n).Perm (candidates st.df s) := by
  unfold rankedIdxSt pandasSortDesc
  rw [List.take_of_length_le
    (by rw [List.length_reverse, (perm_sortAsc _ _).length_eq]; exact h)]
  exact (List.reverse_perm _).trans (perm_sortAsc _ _)

/-! ## Numeric lemmas about the tf-idf weights -/

/-- Dot product of the weight rows of two analyzed documents. -/
noncomputable def dotRow (c : List CardRow) (d e : List Term) : ℝ :=
  ∑ t ∈ vocabFinset c, tfidfW c d t * tfidfW c e t

theorem rowVec_mkState (c : List CardRow) (i : ℕ) (t : Term) :
    rowVec (mkState c) i t = tfidfW c (docAt c i) t := by
  by_cases hi : i < (docsList c).length
  · simp [rowVec, mkState, tfidfMatrix, docAt, List.getD_eq_getElem?_getD,
      List.getElem?_map, List.getElem?_eq_getElem hi]
  · have hi2 : (docsList c).length ≤ i := le_of_not_lt hi
    have hnone : (docsList c)[i]? = none := List.getElem?_eq_none hi2
    simp [rowVec, mkState, tfidfMatrix, docAt, List.getD_eq_getElem?_getD,
      List.getElem?_map, hnone, tfidfW, rawW]

theorem seedVecSt_mkState (c : List CardRow) (s : List Str) (t : Term) :
    seedVecSt (mkState c) s t =
      ((resolveSeedIdx c s).map (fun i => tfidfW c (docAt c i) t)).sum /
        ((resolveSeedIdx c s).length : ℝ) := by
  unfold seedVecSt
  simp only [rowVec_mkState]
  rfl

theorem sum_list_mul (V : Finset Term) (l : List ℕ) (f : ℕ → Term → ℝ)
    (g : Term → ℝ) :
    ∑ t ∈ V, (l.map (fun i => f i t)).sum * g t =
      (l.map (fun i => ∑ t ∈ V, f i t * g t)).sum := by
  induction l with
  | nil => simp
  | cons i l ih =>
    simp only [List.map_cons, List.sum_cons, add_mul, Finset.sum_add_distrib, ih]

theorem simsSt_mkState_eq (c : List CardRow) (s : List Str) (j : ℕ) :
    simsSt (mkState c) s j =
      ((resolveSeedIdx c s).map (fun i => dotRow c (docAt c i) (docAt c j))).sum /
        ((resolveSeedIdx c s).length : ℝ) := by
  unfold simsSt
  simp only [seedVecSt_mkState, rowVec_mkState,
    show (mkState c).vocab.toFinset = vocabFinset c from rfl,
    show (mkState c).df = c from rfl]
  simp only [div_mul_eq_mul_div, ← Finset.sum_div]
  rw [sum_list_mul (vocabFinset c) (resolveSeedIdx c s)
    (fun i t => tfidfW c (docAt c i) t) (fun t => tfidfW c (docAt c j) t)]
  rfl

theorem idfR_nonneg (c : List CardRow) (t : Term) : 0 ≤ idfR c t := by
  unfold idfR
  have hdf : (dfreq c t : ℝ) ≤ (c.length : ℝ) := by
    have h1 : dfreq c t ≤ (docsList c).length := List.countP_le_length _
    have h2 : (docsList c).length = c.length := by simp [docsList, blobs]
    exact_mod_cast h2 ▸ h1
  have h1 : (1 : ℝ) ≤ (1 + (c.length : ℝ)) / (1 + (dfreq c t : ℝ)) := by
    rw [le_div_iff₀ (by positivity)]
    linarith
  have := Real.log_nonneg h1
  linarith

theorem rawW_nonneg (c : List CardRow) (d : List Term) (t : Term) :
    0 ≤ rawW c d t := by
  unfold rawW
  split
  · exact mul_nonneg (Nat.cast_nonneg _) (idfR_nonneg c t)
  · exact le_refl 0

theorem tfidfW_nonneg (c : List CardRow) (d : List Term) (t : Term) :
    0 ≤ tfidfW c d t :=
  div_nonneg (rawW_nonneg c d t) (Real.sqrt_nonneg _)

theorem sum_sq_tfidfW_le_one (c : List CardRow) (d : List Term) :
    ∑ t ∈ vocabFinset c, (tfidfW c d t) ^ 2 ≤ 1 := by
  have hS0 : (0 : ℝ) ≤ ∑ t ∈ vocabFinset c, (rawW c d t) ^ 2 :=
    Finset.sum_nonneg (fun t _ => sq_nonneg _)
  have heq : ∑ t ∈ vocabFinset c, (tfidfW c d t) ^ 2 =
      (∑ t ∈ vocabFinset c, (rawW c d t) ^ 2) /
        (∑ t ∈ vocabFinset c, (rawW c d t) ^ 2) := by
    unfold tfidfW rowNorm
    simp only [div_pow]
    rw [← Finset.sum_div, Real.sq_sqrt hS0]
  rw [heq]
  rcases eq_or_lt_of_le hS0 with h0 | h0
  · rw [← h0]
    simp
  · rw [div_self (ne_of_gt h0)]

theorem dotRow_nonneg (c : List CardRow) (d e : List Term) : 0 ≤ dotRow c d e :=
  Finset.sum_nonneg (fun t _ => mul_nonneg (tfidfW_nonneg c d t) (tfidfW_nonneg c e t))

theorem dotRow_le_one (c : List CardRow) (d e : List Term) : dotRow c d e ≤ 1 := by
  have hcs : (dotRow c d e) ^ 2 ≤
      (∑ t ∈ vocabFinset c, (tfidfW c d t) ^ 2) *
        (∑ t ∈ vocabFinset c, (tfidfW c e t) ^ 2) := by
    simpa [dotRow] using
      Finset.sum_mul_sq_le_sq_mul_sq (vocabFinset c)
        (fun t => tfidfW c d t) (fun t => tfidfW c e t)
  have h1 := sum_sq_tfidfW_le_one c d
  have h2 := sum_sq_tfidfW_le_one c e
  have h1n : (0 : ℝ) ≤ ∑ t ∈ vocabFinset c, (tfidfW c d t) ^ 2 :=
    Finset.sum_nonneg (fun t _ => sq_nonneg _)
  have h2n : (0 : ℝ) ≤ ∑ t ∈ vocabFinset c, (tfidfW c e t) ^ 2 :=
    Finset.sum_nonneg (fun t _ => sq_nonneg _)
  have h0 := dotRow_nonneg c d e
  nlinarith [sq_nonneg (dotRow c d e - 1)]

/-! ## C1: ranking order -/

/-- C1 counterexample: on `cTie` (rows 1 and 2 identical, hence
bit-identical similarity to the seed "alpha"), the ranking step returns
`[2, 1]`: with two candidates the argsort is squarely in numpy's
insertion-sort regime, so it is stable, and pandas reverses it to get the
descending order — the tied rows come out in descending original row
position.  The claim's ascending tie-break would require `[1, 2]`. -/
theorem C1_counterexample :
    simsSt (mkState cTie) ["alpha".data] 1 = simsSt (mkState cTie) ["alpha".data] 2 ∧
    rankedIdxSt (mkState cTie) ["alpha".data] 55 = [2, 1] := by
  have hdoc : docAt cTie 1 = docAt cTie 2 := by decide
  have hsim : simsSt (mkState cTie) ["alpha".data] 1 =
      simsSt (mkState cTie) ["alpha".data] 2 := by
    unfold simsSt
    simp only [rowVec_mkState, hdoc]
  refine ⟨hsim, ?_⟩
  have hc : candidates (mkState cTie).df ["alpha".data] = [1, 2] := by decide
  unfold rankedIdxSt pandasSortDesc
  rw [hc]
  simp only [sortAsc, insertAsc]
  rw [if_pos (le_of_eq hsim)]
  rfl

/-- C1 amended: the ranking step is deterministic (it is a function of the
state, the seed list and `topN`) and returns positions in descending
similarity order, but the program guarantees no particular order between
candidates with bit-identical similarity — in particular not the claimed
ascending row-position order, which the counterexample refutes: pandas
`sort_values(ascending=False)` reverses an ascending quicksort argsort,
which is stable only in numpy's small-array insertion-sort regime, and the
reversal turns any stability into descending tie positions anyway.  The
theorem states only the tie-independent descending-similarity order. -/
theorem C1_ranking_order (st : RecommenderState) (s : List Str) (n : ℕ) :
    (rankedIdxSt st s n).Pairwise (fun a b => simsSt st s b ≤ simsSt st s a) :=
  (rankedIdxSt_pairwise st s n).imp (fun h => by
    rcases h with hlt | ⟨heq, _⟩
    · exact le_of_lt hlt
    · exact le_of_eq heq)

/-! ## C5: seed and NaN-name exclusion -/

/-- C5: whenever at least one seed resolves, `recommend_cards` succeeds,
and every returned row has a present (non-NaN) name that is not among the
supplied seed names — the exclusion is applied to the candidate set before
sorting and truncation (see `C7_ranker` for the resulting length law). -/
theorem C5_seed_exclusion (st : RecommenderState) (s : List Str) (n : ℕ)
    (h : resolveSeedIdx st.df s ≠ []) :
    recommend_cards st s n = .ok (resultsSt st s n) ∧
    (resultsSt st s n).all
      (fun r => !nameMatches s r.row.name && notnaB r.row.name) = true := by
  constructor
  · cases hE : (resolveSeedIdx st.df s).isEmpty
    · simp [recommend_cards, hE]
    · exact absurd (List.isEmpty_iff.mp hE) h
  · rw [List.all_eq_true]
    intro r hr
    rw [resultsSt, List.mem_map] at hr
    obtain ⟨i, hi, rfl⟩ := hr
    have hcand := rankedIdxSt_subset_candidates hi
    rw [candidates, List.mem_filter] at hcand
    exact hcand.2

/-- Witness for C5 on `cGood` with seed `"alpha"`. -/
theorem C5_seed_exclusion_witness :
    recommend_cards (mkState cGood) ["alpha".data] 55 =
      .ok (resultsSt (mkState cGood) ["alpha".data] 55) ∧
    (resultsSt (mkState cGood) ["alpha".data] 55).all
      (fun r => !nameMatches ["alpha".data] r.row.name && notnaB r.row.name) = true :=
  C5_seed_exclusion (mkState cGood) ["alpha".data] 55 (by decide)

/-! ## C7: the ranking algorithm -/

/-- C7: the aggregate query vector is the component-wise arithmetic mean of
the tf-idf rows at the seed positions (no re-normalization); each row's
score is the dot product with this aggregate — equivalently the mean of
its dot products with the individual seed rows; the ranking is truncated to
at most `topN` positions (its length is `min topN (number of candidates)`),
and when at most `topN` candidates survive the exclusion, every candidate
is returned (the ranking is a permutation of the candidate set) without
error. -/
theorem C7_ranker (c : List CardRow) (s : List Str) (n j : ℕ) (t : Term)
    (_h : resolveSeedIdx c s ≠ []) :
    seedVecSt (mkState c) s t =
      ((resolveSeedIdx c s).map (fun i => tfidfW c (docAt c i) t)).sum /
        ((resolveSeedIdx c s).length : ℝ) ∧
    simsSt (mkState c) s j =
      ((resolveSeedIdx c s).map (fun i => dotRow c (docAt c i) (docAt c j))).sum /
        ((resolveSeedIdx c s).length : ℝ) ∧
    (rankedIdxSt (mkState c) s n).length = min n (candidates c s).length ∧
    ((candidates c s).length ≤ n →
      (rankedIdxSt (mkState c) s n).Perm (candidates c s)) := by
  refine ⟨seedVecSt_mkState c s t, simsSt_mkState_eq c s j, ?_, ?_⟩
  · exact length_rankedIdxSt (mkState c) s n
  · intro hle
    exact rankedIdxSt_perm (mkState c) s n hle

/-- Witness for C7 on `cGood` with seed `"alpha"`. -/
theorem C7_ranker_witness :
    seedVecSt (mkState cGood) ["alpha".data] ["beta".data] =
      ((resolveSeedIdx cGood ["alpha".data]).map
        (fun i => tfidfW cGood (docAt cGood i) ["beta".data])).sum /
        ((resolveSeedIdx cGood ["alpha".data]).length : ℝ) ∧
    simsSt (mkState cGood) ["alpha".data] 1 =
      ((resolveSeedIdx cGood ["alpha".data]).map
        (fun i => dotRow cGood (docAt cGood i) (docAt cGood 1))).sum /
        ((resolveSeedIdx cGood ["alpha".data]).length : ℝ) ∧
    (rankedIdxSt (mkState cGood) ["alpha".data] 55).length =
      min 55 (candidates cGood ["alpha".data]).length ∧
    ((candidates cGood ["alpha".data]).length ≤ 55 →
      (rankedIdxSt (mkState cGood) ["alpha".data] 55).Perm
        (candidates cGood ["alpha".data])) :=
  C7_ranker cGood ["alpha".data] 55 1 ["beta".data] (by decide)

/-! ## C8: similarity scores lie in [0, 1] -/

/-- The analyzed blob of row `j` shares no vocabulary term with any
resolved seed row's analyzed blob. -/
def noOverlapB (c : List CardRow) (s : List Str) (j : ℕ) : Bool :=
  (docAt c j).all (fun t =>
    !(decide (t ∈ vocabList c)) ||
      (resolveSeedIdx c s).all (fun i => decide (t ∉ docAt c i)))

theorem count_eq_zero_of_not_mem_term {d : List Term} {t : Term}
    (h : t ∉ d) : d.count t = 0 :=
  List.count_eq_zero.mpr h

theorem tfidfW_eq_zero_of_not_mem (c : List CardRow) {d : List Term} {t : Term}
    (h : t ∉ d) : tfidfW c d t = 0 := by
  unfold tfidfW rawW
  rw [count_eq_zero_of_not_mem_term h]
  simp

/-- C8: on a state built from a corpus, the similarity attached to each
ranked row lies in `[0, 1]`, and is exactly `0` when the row's analyzed
blob shares no vocabulary term with the seed rows' blobs (so none with the
aggregated seed vector's support). -/
theorem C8_similarity_range (c : List CardRow) (s : List Str) (n j : ℕ)
    (h : resolveSeedIdx c s ≠ []) (_h2 : j ∈ rankedIdxSt (mkState c) s n) :
    0 ≤ simsSt (mkState c) s j ∧ simsSt (mkState c) s j ≤ 1 ∧
    (noOverlapB c s j = true → simsSt (mkState c) s j = 0) := by
  have hk : 0 < ((resolveSeedIdx c s).length : ℝ) := by
    have := List.length_pos.mpr h
    exact_mod_cast this
  rw [simsSt_mkState_eq c s j]
  refine ⟨?_, ?_, ?_⟩
  · apply div_nonneg _ (le_of_lt hk)
    apply List.sum_nonneg
    intro x hx
    rw [List.mem_map] at hx
    obtain ⟨i, _, rfl⟩ := hx
    exact dotRow_nonneg c _ _
  · rw [div_le_one hk]
    have hbound := List.sum_le_card_nsmul
      ((resolveSeedIdx c s).map (fun i => dotRow c (docAt c i) (docAt c j))) (1 : ℝ)
      (by
        intro x hx
        rw [List.mem_map] at hx
        obtain ⟨i, _, rfl⟩ := hx
        exact dotRow_le_one c _ _)
    simpa using hbound
  · intro hno
    have hzero : ∀ i ∈ resolveSeedIdx c s,
        dotRow c (docAt c i) (docAt c j) = 0 := by
      intro i hi
      unfold dotRow
      apply Finset.sum_eq_zero
      intro t ht
      by_cases hjt : t ∈ docAt c j
      · rw [noOverlapB, List.all_eq_true] at hno
        have hd := hno t hjt
        rw [Bool.or_eq_true, Bool.not_eq_true', decide_eq_false_iff_not,
          List.all_eq_true] at hd
        rcases hd with hcon | hall
        · exact absurd (List.mem_toFinset.mp ht) hcon
        · have hti := of_decide_eq_true (hall i hi)
          rw [tfidfW_eq_zero_of_not_mem c hti, zero_mul]
      · rw [tfidfW_eq_zero_of_not_mem c hjt, mul_zero]
    have hmap : ((resolveSeedIdx c s).map
        (fun i => dotRow c (docAt c i) (docAt c j))).sum = 0 := by
      apply List.sum_eq_zero
      intro x hx
      rw [List.mem_map] at hx
      obtain ⟨i, hi, rfl⟩ := hx
      exact hzero i hi
    rw [hmap, zero_div]

/-- Witness for C8: row 1 of `cGood` is ranked for seed `"alpha"` (the
candidate list is exactly `[1]`), and its similarity obeys the bounds. -/
theorem C8_similarity_range_witness :
    0 ≤ simsSt (mkState cGood) ["alpha".data] 1 ∧
    simsSt (mkState cGood) ["alpha".data] 1 ≤ 1 ∧
    (noOverlapB cGood ["alpha".data] 1 = true →
      simsSt (mkState cGood) ["alpha".data] 1 = 0) := by
  have hc : candidates (mkState cGood).df ["alpha".data] = [1] := by decide
  have hmem : 1 ∈ rankedIdxSt (mkState cGood) ["alpha".data] 55 := by
    unfold rankedIdxSt pandasSortDesc
    rw [hc]
    simp [sortAsc, insertAsc]
  exact C8_similarity_range cGood ["alpha".data] 55 1 (by decide) hmem

end DeckForge
